import Mathlib

/-!
Shallow embedding of the price normalization and gouging detection engine
of src/amazon_metadata.py.

Modelling conventions:
  * Python Decimal values (and the floats derived from them) are modelled as
    exact rationals; a price field that is absent or unparseable is None in
    the source and is modelled as Option.none here.
  * Decimal.quantize uses the default context: round half to even, and it
    fails (raising InvalidOperation, caught by the callers) when the result
    coefficient would exceed 28 digits; both aspects are modelled.
  * Python dict records are modelled as structures of optional fields; a raw
    field value is represented by its str() rendering, and a falsy value
    (None, empty string) by Option.none or the empty string.
  * Regular-expression searches are modelled by explicit leftmost scanners
    that follow the two patterns of the source character by character.
-/

/-- Whitespace class of Python regular expressions and str.strip (ASCII part). -/
def isWs (c : Char) : Bool :=
  c = ' ' || c = '\t' || c = '\n' || c = '\r' || c = '\x0b' || c = '\x0c'

/-- Word character class of Python regular expressions (ASCII part), for word boundaries. -/
def isWordChar (c : Char) : Bool :=
  c.isAlphanum || c = '_'

/-- Strip leading and trailing whitespace from a character list (str.strip). -/
def trimChars (cs : List Char) : List Char :=
  ((cs.dropWhile isWs).reverse.dropWhile isWs).reverse

/-- Lower-case a character list (str.lower, ASCII part). -/
def lowerChars (cs : List Char) : List Char :=
  cs.map Char.toLower

/-- Model of the source expression (x or "").strip().lower() on an optional string. -/
def lowerTrim (x : Option String) : String :=
  String.mk (lowerChars (trimChars (x.getD "").data))

/-- Model of the source expression (x or "").strip() on an optional string. -/
def trimStr (x : Option String) : String :=
  String.mk (trimChars (x.getD "").data)

/-- Decide whether pat occurs as a prefix of cs. -/
def prefixMatch : List Char → List Char → Bool
  | [], _ => true
  | _ :: _, [] => false
  | p :: ps, c :: cs => p = c && prefixMatch ps cs

/-- Decide whether pat occurs as a contiguous substring of cs. -/
def substrMatch (pat : List Char) : List Char → Bool
  | [] => pat.isEmpty
  | c :: cs => prefixMatch pat (c :: cs) || substrMatch pat cs

/-- Value of a nonempty digit run, most significant digit first. -/
def digitsToNat (ds : List Char) : Nat :=
  ds.foldl (fun a c => a * 10 + (c.toNat - 48)) 0

/-- Consume pat (given lower-cased) case-insensitively from the head of cs. -/
def stripCI : List Char → List Char → Option (List Char)
  | [], cs => some cs
  | _ :: _, [] => none
  | p :: ps, c :: cs => if c.toLower = p then stripCI ps cs else none

/-- Match the pattern pack\s*(of)?\s*(\d+) (case-insensitive) anchored at the head
of cs, returning the captured digits value. Backtracking over the optional of
never changes the outcome, so the scanner is deterministic. -/
def matchPackAt (cs : List Char) : Option Nat :=
  match stripCI ['p', 'a', 'c', 'k'] cs with
  | none => none
  | some r1 =>
    let r2 := r1.dropWhile isWs
    let r3 := match stripCI ['o', 'f'] r2 with
      | some r => r.dropWhile isWs
      | none => r2
    let ds := r3.takeWhile Char.isDigit
    if ds.isEmpty then none else some (digitsToNat ds)

/-- Leftmost search for the pack pattern, as re.search does. -/
def searchPack : List Char → Option Nat
  | [] => none
  | c :: cs =>
    match matchPackAt (c :: cs) with
    | some n => some n
    | none => searchPack cs

/-- Check one alternative of the unit alternation together with the trailing
word boundary of the pattern. -/
def unitOk (u : List Char) (r : List Char) : Bool :=
  match stripCI u r with
  | some [] => true
  | some (c :: _) => !(isWordChar c)
  | none => false

/-- Match the pattern (\d+)\s*(count|ct|pieces|pcs)\b (case-insensitive) anchored
at the head of cs, returning the captured digits value. -/
def matchCountAt (cs : List Char) : Option Nat :=
  let ds := cs.takeWhile Char.isDigit
  if ds.isEmpty then none
  else
    let r := (cs.dropWhile Char.isDigit).dropWhile isWs
    if unitOk ['c', 'o', 'u', 'n', 't'] r || unitOk ['c', 't'] r ||
        unitOk ['p', 'i', 'e', 'c', 'e', 's'] r || unitOk ['p', 'c', 's'] r then
      some (digitsToNat ds)
    else none

/-- Leftmost search for the count pattern, as re.search does. -/
def searchCount : List Char → Option Nat
  | [] => none
  | c :: cs =>
    match matchCountAt (c :: cs) with
    | some n => some n
    | none => searchCount cs

/-- The well-formed fields parse_pack_count inspects: the four structured keys
looked up inside variant_dimensions, and the three free-text fields. A raw
structured value is modelled by its str() rendering, with falsy values as none. -/
structure PackFields where
  number_of_items : Option String := none
  number_of_items_string : Option String := none
  count : Option String := none
  items : Option String := none
  size : Option String := none
  title : Option String := none
  variant_name : Option String := none
deriving DecidableEq

/-- An arbitrary value handed to parse_pack_count: not a dict at all, or a dict
whose variant_dimensions entry is a truthy non-dict (on which the source raises
AttributeError), or a dict with well-formed fields (variant_dimensions absent,
falsy, or a dict). -/
inductive PackInput where
  | notDict : PackInput
  | dict : Bool → PackFields → PackInput
deriving DecidableEq

/-- One structured key: if the value is truthy, the source strips non-digits
and returns max 1 of the parse (empty digit strip parses as the literal 1). -/
def structuredField (v : Option String) : Option Nat :=
  match v with
  | none => none
  | some s =>
    if s = "" then none
    else
      let ds := s.data.filter Char.isDigit
      some (max 1 (if ds.isEmpty then 1 else digitsToNat ds))

/-- One free-text field: the pack pattern is tried first, then the count
pattern; a truthy field with no match yields nothing. -/
def freeTextField (t : Option String) : Option Nat :=
  match t with
  | none => none
  | some s =>
    if s = "" then none
    else
      match searchPack s.data with
      | some n => some (max 1 n)
      | none =>
        match searchCount s.data with
        | some n => some (max 1 n)
        | none => none

/-- Resolution over well-formed fields: structured keys in source key order,
then free-text fields in order size, title, variant_name, each trying both
patterns, then the default 1. -/
def packCountFields (f : PackFields) : Nat :=
  match structuredField f.number_of_items with
  | some n => n
  | none =>
    match structuredField f.number_of_items_string with
    | some n => n
    | none =>
      match structuredField f.count with
      | some n => n
      | none =>
        match structuredField f.items with
        | some n => n
        | none =>
          match freeTextField f.size with
          | some n => n
          | none =>
            match freeTextField f.title with
            | some n => n
            | none =>
              match freeTextField f.variant_name with
              | some n => n
              | none => 1

/-- parse_pack_count of the source on an arbitrary value: a non-dict returns 1;
a dict whose variant_dimensions is a truthy non-dict raises (modelled as error);
otherwise the total resolution over the well-formed fields runs. -/
def parse_pack_count : PackInput → Except Unit Nat
  | .notDict => .ok 1
  | .dict true _ => .error ()
  | .dict false f => .ok (packCountFields f)

example : searchPack "Snack Bars Pack of 12, 1.4oz".data = some 12 := by decide
example : searchCount "12 ct".data = some 12 := by decide
example : searchPack "12 ct".data = none := by decide
example : searchCount "12 counts".data = none := by decide
example : packCountFields { size := some "12 ct", title := some "Pack of 6" } = 12 := by decide
example : packCountFields {} = 1 := by decide
example : packCountFields { number_of_items := some "abc", size := some "Pack of 5" } = 1 := by decide

/-- Round a rational to the nearest integer, ties to the even integer: the
rounding mode of the default Decimal context used by quantize. -/
def roundHalfEvenZ (x : ℚ) : ℤ :=
  let f := x.floor
  let r := x - (f : ℚ)
  if r < 1/2 then f
  else if 1/2 < r then f + 1
  else if f % 2 = 0 then f else f + 1

/-- Decimal.quantize to four fractional digits under the default context:
half-even rounding, failing when the result coefficient would need more than
the 28 digits of precision. -/
def quantize4 (x : ℚ) : Option ℚ :=
  let n := roundHalfEvenZ (x * 10000)
  if n.natAbs < 10 ^ 28 then some ((n : ℚ) / 10000) else none

/-- compute_unit_price_from_price of the source: the parsed price divided by
the pack count, quantized to four digits; any failure (unparseable price,
zero pack count, quantize overflow) yields none. -/
def compute_unit_price_from_price (price : Option ℚ) (pack : Nat) : Option ℚ :=
  match price with
  | none => none
  | some p => if pack = 0 then none else quantize4 (p / (pack : ℚ))

/-- PCT_THRESHOLD of the source. -/
def PCT_THRESHOLD : ℚ := 20

/-- ABS_THRESHOLD of the source. -/
def ABS_THRESHOLD : ℚ := 2

/-- One seller entry (a main_seller or seller_market dict). Price fields hold
the result of to_decimal on the raw value: none when absent or unparseable.
positive_rating_percent distinguishes absent (none) from present but not
float-parseable (some none). Pack fields are the well-formed projection used
by parse_pack_count. -/
structure SellerEntry where
  seller_name : Option String := none
  asin : Option String := none
  price : Option ℚ := none
  unit_price : Option ℚ := none
  price_flag : Option String := none
  positive_rating_percent : Option (Option ℚ) := none
  pack : PackFields := {}
deriving DecidableEq

/-- One variant (SKU) record. -/
structure Variant where
  asin : Option String := none
  title : Option String := none
  price : Option ℚ := none
  pack : PackFields := {}
deriving DecidableEq

/-- One product family record. -/
structure Product where
  product_name : Option String := none
  category : Option String := none
  variants : List Variant := []
  main_seller : List SellerEntry := []
  seller_market : List SellerEntry := []
deriving DecidableEq

/-- The test amazon in (m.get of seller_name or "").lower() of the baseline
selector. -/
def isAmazonName (m : SellerEntry) : Bool :=
  substrMatch ['a', 'm', 'a', 'z', 'o', 'n'] (lowerChars (m.seller_name.getD "").data)

/-- choose_amazon_baseline_for_asin, first phase: scan the main sellers for a
name containing amazon (case-insensitive) and return its computed unit price,
else its raw parsed price; an amazon-named entry yielding neither is skipped. -/
def amazonScan : List SellerEntry → Option (Option ℚ × String)
  | [] => none
  | m :: rest =>
    if isAmazonName m then
      match compute_unit_price_from_price m.price (packCountFields m.pack) with
      | some up => some (some up, "main_seller_amazon")
      | none =>
        match m.price with
        | some dp => some (some dp, "main_seller_amazon_raw")
        | none => amazonScan rest
    else amazonScan rest

/-- choose_amazon_baseline_for_asin of the source: amazon-named main seller,
else the first main seller, else the variant unit price, else nothing. -/
def choose_amazon_baseline_for_asin (ms : List SellerEntry) (vup : Option ℚ) :
    Option ℚ × String :=
  match amazonScan ms with
  | some r => r
  | none =>
    let vupBranch : Option ℚ × String :=
      match vup with
      | some v => (some v, "variant_unit_price")
      | none => (none, "none")
    match ms with
    | [] => vupBranch
    | m :: _ =>
      match compute_unit_price_from_price m.price (packCountFields m.pack) with
      | some up => (some up, "main_seller_first")
      | none =>
        match m.price with
        | some dp => (some dp, "main_seller_first_raw")
        | none => vupBranch

/-- The seller unit price determination of the main loop: a declared positive
unit price is kept as-is unless it fails the sanity check unit*pack < price/2,
in which case (and when no positive declared unit price exists) the unit price
is recomputed from the listed price. -/
def seller_unit_price_of (s : SellerEntry) : Option ℚ :=
  let spc := packCountFields s.pack
  match s.unit_price with
  | some u =>
    if 0 < u then
      match s.price with
      | some p =>
        if u * (spc : ℚ) < p * (1/2) then compute_unit_price_from_price (some p) spc
        else some u
      | none => some u
    else compute_unit_price_from_price s.price spc
  | none => compute_unit_price_from_price s.price spc

/-- price_delta_pct of the main loop: undefined exactly when the baseline is
zero (Decimal division by zero raises and is caught). -/
def price_delta_pct (u b : ℚ) : Option ℚ :=
  if b = 0 then none else some ((u - b) / b * 100)

/-- The computed dual-threshold gouging rule of the main loop. -/
def computed_gouging (u b : ℚ) : Bool :=
  match price_delta_pct u b with
  | some dp => decide (PCT_THRESHOLD ≤ dp) && decide (ABS_THRESHOLD ≤ u - b)
  | none => false

/-- is_gouging after the upstream override: a price gouging flag forces true. -/
def is_gouging_final (flag : Option String) (u b : ℚ) : Bool :=
  computed_gouging u b || (lowerTrim flag = "price gouging")

/-- Per-category accumulator entry of category_gouge_stats. -/
structure CatStats where
  total : Nat := 0
  gouged : Nat := 0
  pct_list : List ℚ := []
  abs_list : List ℚ := []
deriving DecidableEq

/-- One entry appended to top_gouged_candidates. -/
structure Candidate where
  asin : String
  category : String
  seller_name : String
  amazon_price_unit : Option ℚ
  seller_price_unit : Option ℚ
  price_delta_abs : ℚ
  price_delta_percent : Option ℚ
  detected_as_gouging : Bool
  upstream_price_flag : Option String
deriving DecidableEq

/-- Update a category entry in insertion-ordered association-list form,
creating it from the defaultdict default when absent. -/
def updCat (k : String) (f : CatStats → CatStats) :
    List (String × CatStats) → List (String × CatStats)
  | [] => [(k, f {})]
  | (k2, v) :: rest =>
    if k2 = k then (k2, f v) :: rest else (k2, v) :: updCat k f rest

/-- Increment a seller gouged count in insertion-ordered association-list form. -/
def updSeller (k : String) : List (String × Nat) → List (String × Nat)
  | [] => [(k, 1)]
  | (k2, v) :: rest =>
    if k2 = k then (k2, v + 1) :: rest else (k2, v) :: updSeller k rest

/-- Add a name to a set modelled as a duplicate-free insertion-ordered list. -/
def addToSet (x : String) (l : List String) : List String :=
  if x ∈ l then l else l ++ [x]

/-- Add a gouging seller name to the set held for an asin in sku_gouged_map. -/
def updSku (k : String) (name : String) :
    List (String × List String) → List (String × List String)
  | [] => [(k, [name])]
  | (k2, v) :: rest =>
    if k2 = k then (k2, addToSet name v) :: rest else (k2, v) :: updSku k name rest

/-- The mutable accumulators of generate_summary that the verified claims
depend on. -/
structure AggState where
  total_skus : Nat := 0
  total_listings : Nat := 0
  total_gouged : Nat := 0
  fair_count : Nat := 0
  all_pct : List ℚ := []
  all_abs : List ℚ := []
  seller_gouged_count : List (String × Nat) := []
  sku_gouged : List (String × List String) := []
  cat_stats : List (String × CatStats) := []
  candidates : List Candidate := []
deriving DecidableEq

/-- Processing of one seller entry of the combined main-plus-marketplace list
for one variant (the body of the innermost loop of generate_summary). -/
def processOffer (category asin : String) (baseline : Option ℚ)
    (st : AggState) (s : SellerEntry) : AggState :=
  let name := trimStr s.seller_name
  if name = "" then st
  else
    let pfFair := lowerTrim s.price_flag = "fair price"
    match seller_unit_price_of s, baseline with
    | some u, some b =>
      let dabs := u - b
      let dpct := price_delta_pct u b
      let isG := is_gouging_final s.price_flag u b
      { st with
        candidates :=
          if isG then
            st.candidates ++
              [{ asin := asin, category := category, seller_name := name,
                 amazon_price_unit := some b, seller_price_unit := some u,
                 price_delta_abs := dabs, price_delta_percent := dpct,
                 detected_as_gouging := isG, upstream_price_flag := s.price_flag }]
          else st.candidates,
        total_listings := st.total_listings + 1,
        cat_stats := updCat category (fun c =>
          { c with total := c.total + 1,
                   gouged := if isG then c.gouged + 1 else c.gouged,
                   pct_list := match dpct with
                     | some dp => c.pct_list ++ [dp]
                     | none => c.pct_list,
                   abs_list := c.abs_list ++ [dabs] }) st.cat_stats,
        fair_count := if pfFair then st.fair_count + 1 else st.fair_count,
        all_pct := match dpct with
          | some dp => st.all_pct ++ [dp]
          | none => st.all_pct,
        all_abs := st.all_abs ++ [dabs],
        total_gouged := if isG then st.total_gouged + 1 else st.total_gouged,
        seller_gouged_count :=
          if isG then updSeller name st.seller_gouged_count
          else st.seller_gouged_count,
        sku_gouged := if isG then updSku asin name st.sku_gouged else st.sku_gouged }
    | _, _ =>
      { st with
        total_listings := st.total_listings + 1,
        cat_stats := updCat category (fun c => { c with total := c.total + 1 })
          st.cat_stats,
        fair_count := if pfFair then st.fair_count + 1 else st.fair_count }

/-- Processing of one variant: skip falsy asins, infer pack count and unit
price, select the baseline, and fold the combined offer list (main sellers
for this asin first, then matching marketplace sellers). -/
def processVariant (category : String) (mainSellers marketSellers : List SellerEntry)
    (st : AggState) (v : Variant) : AggState :=
  match v.asin with
  | none => st
  | some a =>
    if a = "" then st
    else
      let pack := packCountFields v.pack
      let vup := compute_unit_price_from_price v.price pack
      let sellers := marketSellers.filter (fun s => s.asin = some a)
      let mainS := mainSellers.filter (fun m => m.asin = some a)
      let baseline := (choose_amazon_baseline_for_asin mainS vup).1
      (mainS ++ sellers).foldl (processOffer category a baseline) st

/-- Processing of one product family. -/
def processProduct (st : AggState) (item : Product) : AggState :=
  let category :=
    match item.category with
    | none => "Unknown"
    | some c => if c = "" then "Unknown" else c
  let st1 := { st with total_skus := st.total_skus + item.variants.length }
  item.variants.foldl
    (processVariant category item.main_seller item.seller_market) st1

/-- The main loop of generate_summary over the whole snapshot. -/
def generate_agg (data : List Product) : AggState :=
  data.foldl processProduct {}

/-- The distinct-rated-seller pass computing bad_seller_count and
total_sellers_with_ratings: first occurrence of each truthy seller name in
the marketplace lists decides its rating contribution. -/
def badSellersStep (acc : List String × Nat × Nat) (s : SellerEntry) :
    List String × Nat × Nat :=
  let (seen, tot, bad) := acc
  match s.seller_name with
  | none => acc
  | some nm =>
    if nm = "" then acc
    else if nm ∈ seen then acc
    else
      match s.positive_rating_percent with
      | none => (seen ++ [nm], tot, bad)
      | some none => (seen ++ [nm], tot + 1, bad)
      | some (some q) => (seen ++ [nm], tot + 1, if q < 50 then bad + 1 else bad)

/-- The bad-sellers pass over the whole snapshot. -/
def badSellersPass (data : List Product) : List String × Nat × Nat :=
  data.foldl (fun acc item => item.seller_market.foldl badSellersStep acc) ([], 0, 0)

/-- Python round to two fractional digits, modelled as half-even rounding. -/
def round2 (x : ℚ) : ℚ :=
  ((roundHalfEvenZ (x * 100) : ℤ) : ℚ) / 100

/-- The final clamp max(0.0, min(100.0, x)) applied to the health score. -/
def clampScore (x : ℚ) : ℚ :=
  if x < 0 then 0 else if 100 < x then 100 else x

/-- One row of category_gouging_summary. -/
structure CatRow where
  category : String
  total_listings : Nat
  gouged_listings : Nat
  gouging_rate : ℚ
  avg_overprice_pct : ℚ
  avg_overprice_abs : ℚ
deriving DecidableEq

/-- Derivation of a category row from its accumulator entry. -/
def catRowOf (p : String × CatStats) : CatRow :=
  { category := p.1,
    total_listings := p.2.total,
    gouged_listings := p.2.gouged,
    gouging_rate := if p.2.total = 0 then 0 else (p.2.gouged : ℚ) / (p.2.total : ℚ) * 100,
    avg_overprice_pct :=
      if p.2.pct_list.isEmpty then 0 else p.2.pct_list.sum / (p.2.pct_list.length : ℚ),
    avg_overprice_abs :=
      if p.2.abs_list.isEmpty then 0 else p.2.abs_list.sum / (p.2.abs_list.length : ℚ) }

/-- The output fields of generate_summary that the verified claims depend on. -/
structure Summary where
  total_skus : Nat
  total_listings : Nat
  total_gouged_listings : Nat
  fair_price_listings : Nat
  avg_overprice_pct : ℚ
  avg_overprice_abs : ℚ
  gouging_rate : ℚ
  sku_gouged_map : List (String × List String)
  skus_impacted : Nat
  category_gouging_summary : List CatRow
  prop_bad_sellers : ℚ
  marketplace_health_score : ℚ
deriving DecidableEq

/-- generate_summary of the source, from snapshot to summary object. -/
def generate_summary (data : List Product) : Summary :=
  let ag := generate_agg data
  let gouging_rate : ℚ :=
    if ag.total_listings = 0 then 0
    else (ag.total_gouged : ℚ) / (ag.total_listings : ℚ) * 100
  let avg_pct : ℚ :=
    if ag.all_pct.isEmpty then 0 else ag.all_pct.sum / (ag.all_pct.length : ℚ)
  let avg_abs : ℚ :=
    if ag.all_abs.isEmpty then 0 else ag.all_abs.sum / (ag.all_abs.length : ℚ)
  let rows := (ag.cat_stats.map catRowOf).insertionSort
    (fun a b => b.gouging_rate ≤ a.gouging_rate)
  let pb := badSellersPass data
  let prop_bad : ℚ :=
    if pb.2.1 = 0 then 0 else (pb.2.2 : ℚ) / (pb.2.1 : ℚ) * 100
  let health :=
    clampScore (round2 (100 - gouging_rate * (1/2) - avg_pct * (2/5) - prop_bad * (1/10)))
  { total_skus := ag.total_skus,
    total_listings := ag.total_listings,
    total_gouged_listings := ag.total_gouged,
    fair_price_listings := ag.fair_count,
    avg_overprice_pct := avg_pct,
    avg_overprice_abs := avg_abs,
    gouging_rate := gouging_rate,
    sku_gouged_map := ag.sku_gouged.map
      (fun p => (p.1, p.2.insertionSort (fun a b => a ≤ b))),
    skus_impacted := (ag.sku_gouged.filter (fun p => !p.2.isEmpty)).length,
    category_gouging_summary := rows,
    prop_bad_sellers := prop_bad,
    marketplace_health_score := health }

/-- Modelled from the claim wording for comparison: rounding to the nearest
integer with a half-way value rounded away from zero. -/
def roundHalfAwayZ (x : ℚ) : ℤ :=
  if 0 ≤ x then (if x - (x.floor : ℚ) < 1/2 then x.floor else x.floor + 1)
  else -(if (-x) - ((-x).floor : ℚ) < 1/2 then (-x).floor else (-x).floor + 1)

/-- Modelled from the claim wording for comparison: quantization of a unit
price to four fractional digits with round-half-up (away from zero). -/
def specQuantize4HalfUp (x : ℚ) : ℚ :=
  ((roundHalfAwayZ (x * 10000) : ℤ) : ℚ) / 10000

/-- Concrete input for the fair-price-flag claim: one SKU with an amazon main
seller at unit price 10 and one marketplace offer at unit price 60 whose
upstream price_flag is fair price (delta 50, 500 percent). -/
def cexFairProduct : Product :=
  { category := some "Snacks",
    variants := [{ asin := some "A1", price := some 10 }],
    main_seller := [{ seller_name := some "Amazon.com", asin := some "A1", price := some 10 }],
    seller_market := [{ seller_name := some "Scalper", asin := some "A1", price := some 60,
                        price_flag := some "fair price" }] }

/-- Concrete input for the deduplication claim: the same seller identity
(name Foo, no seller id) appears once in the primary list and once in the
marketplace list for the same asin. -/
def cexDupProduct : Product :=
  { category := some "Snacks",
    variants := [{ asin := some "A1", price := some 10 }],
    main_seller := [{ seller_name := some "Foo", asin := some "A1", price := some 10 }],
    seller_market := [{ seller_name := some "Foo", asin := some "A1", price := some 10 }] }

/-- Concrete input for the baseline claim: an amazon-named main seller that
declares unit_price 3 while its listed price is 10 for a single unit. -/
def amazonDeclaredEntry : SellerEntry :=
  { seller_name := some "Amazon.com", asin := some "A1", price := some 10, unit_price := some 3 }

/-- Concrete scenario family for the dual-threshold claim: baseline unit price
5 from the amazon main seller and one marketplace offer at the given price. -/
def scenarioOffer (mp : ℚ) : Product :=
  { category := some "Snacks",
    variants := [{ asin := some "A1", price := some 5 }],
    main_seller := [{ seller_name := some "Amazon", asin := some "A1", price := some 5 }],
    seller_market := [{ seller_name := some "Reseller", asin := some "A1", price := some mp }] }

/-- Concrete marketplace entry for the fair-price claim, as placed in
cexFairProduct. -/
def scalperEntry : SellerEntry :=
  { seller_name := some "Scalper", asin := some "A1", price := some 60,
    price_flag := some "fair price" }

/-- Concrete pack-count record for the pattern-priority claim: the size field
matches only the count pattern while the title matches the pack pattern. -/
def cexC6Fields : PackFields :=
  { size := some "12 ct", title := some "Pack of 6" }

/-- Concrete pack-count record for the robustness claim: a truthy structured
field with no digits next to a size field that would match the pack pattern. -/
def cexC7Fields : PackFields :=
  { number_of_items := some "abc", size := some "Pack of 5" }

/-- Concrete seller entry for the declared-unit-price sanity check claim:
declared unit price 1 against listed price 10 at pack count 1. -/
def cexC10Entry : SellerEntry :=
  { seller_name := some "S", price := some 10, unit_price := some 1 }

lemma structuredField_ge_one {v : Option String} {n : Nat}
    (h : structuredField v = some n) : 1 ≤ n := by
  unfold structuredField at h
  rcases v with _ | s
  · cases h
  · by_cases hs : s = ""
    · simp [hs] at h
    · simp only [if_neg hs, Option.some.injEq] at h
      omega

lemma freeTextField_ge_one {t : Option String} {n : Nat}
    (h : freeTextField t = some n) : 1 ≤ n := by
  unfold freeTextField at h
  rcases t with _ | s
  · cases h
  · by_cases hs : s = ""
    · simp [hs] at h
    · simp only [if_neg hs] at h
      rcases h1 : searchPack s.data with _ | m <;> rw [h1] at h
      · rcases h2 : searchCount s.data with _ | m2 <;> rw [h2] at h
        · cases h
        · simp only [Option.some.injEq] at h; omega
      · simp only [Option.some.injEq] at h; omega

lemma packCountFields_ge_one (f : PackFields) : 1 ≤ packCountFields f := by
  unfold packCountFields
  repeat' split
  all_goals
    first
      | omega
      | exact structuredField_ge_one (by assumption)
      | exact freeTextField_ge_one (by assumption)

/-- C7 counterexample: a truthy non-dict variant_dimensions raises instead of
returning an integer, and a truthy structured field with no digits resolves to
1 immediately instead of falling through to the pack pattern of the size
field, which would give 5. -/
theorem cex_C7 : parse_pack_count (.dict true {}) = .error () ∧
    parse_pack_count (.dict false cexC7Fields) = .ok 1 ∧ (1 : Nat) ≠ 5 :=
  ⟨rfl, rfl, by decide⟩

/-- C7 (amended): for every record that is not a dict, and for every record
whose variant_dimensions is absent, falsy, or a dict, the pack-count
inferencer returns an integer at least 1 (default 1); a truthy non-dict
variant_dimensions instead raises, and a truthy structured dimension field
without digits resolves to 1 rather than falling through to free text. -/
theorem thm_C7 :
    (∀ f : PackFields,
      parse_pack_count (.dict false f) = .ok (packCountFields f) ∧
        1 ≤ packCountFields f) ∧
    parse_pack_count .notDict = .ok 1 :=
  ⟨fun f => ⟨rfl, packCountFields_ge_one f⟩, rfl⟩

/-- C6 counterexample: with size 12 ct and title Pack of 6, the count pattern
match of the earlier size field wins over the pack pattern match of the later
title field, so the result is 12, not the 6 the claim requires. -/
theorem cex_C6 : parse_pack_count (.dict false cexC6Fields) = .ok 12 ∧
    (12 : Nat) ≠ 6 :=
  ⟨rfl, by decide⟩

/-- C6 (amended): the free-text fields are scanned in order size, title, name,
and within each single field the pack pattern is tried before the count
pattern; hence when no structured field resolves and the size field matches
only the count pattern with value n, the result is max 1 n regardless of any
pack pattern in the later title or name fields. -/
theorem thm_C6 :
    ∀ (f : PackFields) (s : String) (n : Nat),
      structuredField f.number_of_items = none →
      structuredField f.number_of_items_string = none →
      structuredField f.count = none →
      structuredField f.items = none →
      f.size = some s → ¬ s = "" →
      searchPack s.data = none →
      searchCount s.data = some n →
      packCountFields f = max 1 n := by
  intro f s n h1 h2 h3 h4 hsz hne hsp hsc
  have hft : freeTextField f.size = some (max 1 n) := by
    unfold freeTextField
    rw [hsz]
    simp only [if_neg hne, hsp, hsc]
  unfold packCountFields
  simp only [h1, h2, h3, h4, hft]

/-- Witness for the amended C6 at the concrete record with size 12 ct and
title Pack of 6. -/
theorem wit_C6 : packCountFields cexC6Fields = max 1 12 :=
  thm_C6 cexC6Fields "12 ct" 12 (by decide) (by decide) (by decide) (by decide)
    rfl (by decide) (by decide) (by decide)

lemma ratFloor_eq_intFloor (x : ℚ) : x.floor = ⌊x⌋ := rfl

lemma halfEven_char (x : ℚ) :
    |x - (roundHalfEvenZ x : ℚ)| ≤ 1/2 ∧
      (|x - (roundHalfEvenZ x : ℚ)| = 1/2 → roundHalfEvenZ x % 2 = 0) := by
  have hfl : ((x.floor : ℤ) : ℚ) ≤ x := by
    rw [ratFloor_eq_intFloor]; exact Int.floor_le x
  have hlt : x < ((x.floor : ℤ) : ℚ) + 1 := by
    rw [ratFloor_eq_intFloor]; exact_mod_cast Int.lt_floor_add_one x
  by_cases hc1 : x - (x.floor : ℚ) < 1/2
  · have he : roundHalfEvenZ x = x.floor := by
      simp only [roundHalfEvenZ]; rw [if_pos hc1]
    rw [he]
    constructor
    · rw [abs_of_nonneg (by linarith)]; linarith
    · intro h; rw [abs_of_nonneg (by linarith)] at h; linarith
  · by_cases hc2 : 1/2 < x - (x.floor : ℚ)
    · have he : roundHalfEvenZ x = x.floor + 1 := by
        simp only [roundHalfEvenZ]; rw [if_neg hc1, if_pos hc2]
      rw [he]
      push_cast
      constructor
      · rw [abs_of_nonpos (by linarith)]; linarith
      · intro h; rw [abs_of_nonpos (by linarith)] at h; linarith
    · have hr : x - (x.floor : ℚ) = 1/2 := le_antisymm (not_lt.1 hc2) (not_lt.1 hc1)
      by_cases hev : x.floor % 2 = 0
      · have he : roundHalfEvenZ x = x.floor := by
          simp only [roundHalfEvenZ]; rw [if_neg hc1, if_neg hc2, if_pos hev]
        rw [he]
        constructor
        · rw [abs_of_nonneg (by linarith)]; linarith
        · intro _; exact hev
      · have he : roundHalfEvenZ x = x.floor + 1 := by
          simp only [roundHalfEvenZ]; rw [if_neg hc1, if_neg hc2, if_neg hev]
        rw [he]
        push_cast
        constructor
        · rw [abs_of_nonpos (by linarith)]; linarith
        · intro _; omega

/-- C5 counterexample: at listed price 0.00025 and pack count 1, the code
quantizes to 0.0002 (half to even), while round-half-up as claimed gives
0.0003. -/
theorem cex_C5 : compute_unit_price_from_price (some (1/4000)) 1 = some (1/5000) ∧
    specQuantize4HalfUp ((1/4000 : ℚ) / ((1 : Nat) : ℚ)) = 3/10000 ∧
    ((1/5000 : ℚ) ≠ 3/10000) :=
  ⟨by with_unfolding_all rfl, by with_unfolding_all rfl, by norm_num⟩

/-- C5 (amended): for every parseable listed price and pack count at least 1,
a defined computed unit price is the quotient quantized to exactly four
fractional digits using round-half-even: it is an integer multiple of 0.0001
within half an ulp of the exact quotient, and an exact half-way quotient
rounds to the even multiple (not away from zero). -/
theorem thm_C5 :
    ∀ (p : ℚ) (n : Nat) (u : ℚ), 1 ≤ n →
      compute_unit_price_from_price (some p) n = some u →
      ∃ k : ℤ, u = (k : ℚ) / 10000 ∧ |p / (n : ℚ) - u| ≤ 1/20000 ∧
        (|p / (n : ℚ) - u| = 1/20000 → k % 2 = 0) := by
  intro p n u hn h
  simp only [compute_unit_price_from_price, quantize4] at h
  rw [if_neg (by omega : ¬ n = 0)] at h
  split at h
  · rename_i hcoef
    injection h with hu
    refine ⟨roundHalfEvenZ (p / (n : ℚ) * 10000), hu.symm, ?_, ?_⟩
    · have key := (halfEven_char (p / (n : ℚ) * 10000)).1
      have hdiff : p / (n : ℚ) - ((roundHalfEvenZ (p / (n : ℚ) * 10000) : ℤ) : ℚ) / 10000
          = (p / (n : ℚ) * 10000 - ((roundHalfEvenZ (p / (n : ℚ) * 10000) : ℤ) : ℚ)) / 10000 := by
        ring
      rw [← hu, hdiff, abs_div, abs_of_pos (by norm_num : (0:ℚ) < 10000)]
      linarith
    · intro htie
      have hdiff : p / (n : ℚ) - ((roundHalfEvenZ (p / (n : ℚ) * 10000) : ℤ) : ℚ) / 10000
          = (p / (n : ℚ) * 10000 - ((roundHalfEvenZ (p / (n : ℚ) * 10000) : ℤ) : ℚ)) / 10000 := by
        ring
      rw [← hu, hdiff, abs_div, abs_of_pos (by norm_num : (0:ℚ) < 10000)] at htie
      exact (halfEven_char (p / (n : ℚ) * 10000)).2 (by linarith)
  · cases h

/-- Witness for the amended C5 at price 0.00025 and pack count 1, where the
computed unit price is 0.0002. -/
theorem wit_C5 : ∃ k : ℤ, (1/5000 : ℚ) = (k : ℚ) / 10000 ∧
    |(1/4000 : ℚ) / ((1 : Nat) : ℚ) - 1/5000| ≤ 1/20000 ∧
    (|(1/4000 : ℚ) / ((1 : Nat) : ℚ) - 1/5000| = 1/20000 → k % 2 = 0) :=
  thm_C5 (1/4000) 1 (1/5000) (by norm_num) (by with_unfolding_all rfl)

/-- C10: the declared-unit-price sanity check of the main loop. A declared
positive unit price is discarded and recomputed from the listed price exactly
when declared times pack count falls below half the listed price; otherwise it
is used unquantized; and without a positive declared unit price the unit
price always comes from the listed price. -/
theorem thm_C10 :
    (∀ (s : SellerEntry) (u p : ℚ), s.unit_price = some u → 0 < u →
      s.price = some p → u * (packCountFields s.pack : ℚ) < p * (1/2) →
      seller_unit_price_of s =
        compute_unit_price_from_price (some p) (packCountFields s.pack)) ∧
    (∀ (s : SellerEntry) (u p : ℚ), s.unit_price = some u → 0 < u →
      s.price = some p → ¬ u * (packCountFields s.pack : ℚ) < p * (1/2) →
      seller_unit_price_of s = some u) ∧
    (∀ (s : SellerEntry) (u : ℚ), s.unit_price = some u → 0 < u → s.price = none →
      seller_unit_price_of s = some u) ∧
    (∀ s : SellerEntry, s.unit_price = none →
      seller_unit_price_of s =
        compute_unit_price_from_price s.price (packCountFields s.pack)) ∧
    (∀ (s : SellerEntry) (u : ℚ), s.unit_price = some u → ¬ 0 < u →
      seller_unit_price_of s =
        compute_unit_price_from_price s.price (packCountFields s.pack)) := by
  refine ⟨?_, ?_, ?_, ?_, ?_⟩
  · intro s u p h1 h2 h3 h4
    simp only [seller_unit_price_of, h1, h3, if_pos h2, if_pos h4]
  · intro s u p h1 h2 h3 h4
    simp only [seller_unit_price_of, h1, h3, if_pos h2, if_neg h4]
  · intro s u h1 h2 h3
    simp only [seller_unit_price_of, h1, h3, if_pos h2]
  · intro s h1
    simp only [seller_unit_price_of, h1]
  · intro s u h1 h2
    simp only [seller_unit_price_of, h1, if_neg h2]

/-- Witness for C10 at a concrete entry with declared unit price 1, listed
price 10, pack count 1: the sanity check fires and the unit price is
recomputed from the listed price. -/
theorem wit_C10 : seller_unit_price_of cexC10Entry =
    compute_unit_price_from_price (some 10) (packCountFields cexC10Entry.pack) :=
  thm_C10.1 cexC10Entry 1 10 rfl (by norm_num) rfl (by with_unfolding_all decide)

/-- C4: the computed dual-threshold rule holds exactly when the percentage
delta reaches 20 and the absolute delta reaches 2, and end to end a baseline
5 offer at 6.50 is not counted gouged while an offer at 7.50 is. -/
theorem thm_C4 :
    (∀ u b : ℚ, b ≠ 0 →
      (computed_gouging u b = true ↔
        (PCT_THRESHOLD ≤ (u - b) / b * 100 ∧ ABS_THRESHOLD ≤ u - b))) ∧
    (generate_summary [scenarioOffer (13/2)]).total_gouged_listings = 0 ∧
    (generate_summary [scenarioOffer (15/2)]).total_gouged_listings = 1 := by
  refine ⟨?_, by with_unfolding_all rfl, by with_unfolding_all rfl⟩
  intro u b hb
  simp only [computed_gouging, price_delta_pct, if_neg hb]
  rw [Bool.and_eq_true, decide_eq_true_eq, decide_eq_true_eq]

/-- Witness for C4 at the 7.50 offer against baseline 5: both thresholds are
met, so the computed rule fires. -/
theorem wit_C4 : computed_gouging (15/2) 5 = true :=
  (thm_C4.1 (15/2) 5 (by norm_num)).2
    ⟨by norm_num [PCT_THRESHOLD], by norm_num [ABS_THRESHOLD]⟩

lemma amazonScan_append (pre : List SellerEntry)
    (hpre : ∀ m2 ∈ pre, isAmazonName m2 = false) (rest : List SellerEntry) :
    amazonScan (pre ++ rest) = amazonScan rest := by
  induction pre with
  | nil => rfl
  | cons a as ih =>
    have ha := hpre a (List.mem_cons_self a as)
    simp only [List.cons_append, amazonScan, ha, Bool.false_eq_true, if_false]
    exact ih fun m2 hm => hpre m2 (List.mem_cons_of_mem a hm)

/-- C3 counterexample: an amazon-named primary offer declaring unit price 3
(present and positive) next to listed price 10 yields baseline 10 computed
from the listed price, not the declared 3 the claim requires. -/
theorem cex_C3 :
    amazonDeclaredEntry.unit_price = some 3 ∧ (0:ℚ) < 3 ∧
    (choose_amazon_baseline_for_asin [amazonDeclaredEntry] none).1 = some 10 ∧
    (choose_amazon_baseline_for_asin [amazonDeclaredEntry] none).2 = "main_seller_amazon" ∧
    (some (10:ℚ) ≠ some (3:ℚ)) :=
  ⟨rfl, by norm_num, by with_unfolding_all rfl, by with_unfolding_all rfl, by norm_num⟩

/-- C3 (amended): the baseline for a SKU with amazon-named primary offers is
taken from the first amazon-named offer that yields a value: its computed unit
price (listed price divided by inferred pack count, quantized) when that
computes, tagged main_seller_amazon, else its raw parsed listed price, tagged
main_seller_amazon_raw; the declared unit price field of the offer is never
consulted. -/
theorem thm_C3 :
    (∀ (pre rest : List SellerEntry) (m : SellerEntry) (p u : ℚ) (vup : Option ℚ),
      (∀ m2 ∈ pre, isAmazonName m2 = false) →
      isAmazonName m = true →
      m.price = some p →
      compute_unit_price_from_price (some p) (packCountFields m.pack) = some u →
      choose_amazon_baseline_for_asin (pre ++ m :: rest) vup =
        (some u, "main_seller_amazon")) ∧
    (∀ (pre rest : List SellerEntry) (m : SellerEntry) (p : ℚ) (vup : Option ℚ),
      (∀ m2 ∈ pre, isAmazonName m2 = false) →
      isAmazonName m = true →
      m.price = some p →
      compute_unit_price_from_price (some p) (packCountFields m.pack) = none →
      choose_amazon_baseline_for_asin (pre ++ m :: rest) vup =
        (some p, "main_seller_amazon_raw")) := by
  constructor
  · intro pre rest m p u vup hpre ham hp hcomp
    have h1 : amazonScan (pre ++ m :: rest) = some (some u, "main_seller_amazon") := by
      rw [amazonScan_append pre hpre]
      simp only [amazonScan, ham, if_true, hp, hcomp]
    simp only [choose_amazon_baseline_for_asin, h1]
  · intro pre rest m p vup hpre ham hp hcomp
    have h1 : amazonScan (pre ++ m :: rest) = some (some p, "main_seller_amazon_raw") := by
      rw [amazonScan_append pre hpre]
      simp only [amazonScan, ham, if_true, hp, hcomp]
    simp only [choose_amazon_baseline_for_asin, h1]

/-- Witness for the amended C3 at the concrete amazon-named entry: the
declared unit price 3 is ignored and the baseline is the computed 10. -/
theorem wit_C3 : choose_amazon_baseline_for_asin [amazonDeclaredEntry] none =
    (some 10, "main_seller_amazon") :=
  thm_C3.1 [] [] amazonDeclaredEntry 10 10 none (by intro m2 hm; cases hm)
    (by decide) rfl (by with_unfolding_all rfl)

/-- Sum of per-category total listing counters of the accumulator. -/
def catTotalSum (m : List (String × CatStats)) : Nat :=
  (m.map fun p => p.2.total).sum

/-- The loop invariant behind the aggregate claims: the per-category totals
sum to the global listing count, and gouged listings never exceed listings. -/
def AggInv (st : AggState) : Prop :=
  catTotalSum st.cat_stats = st.total_listings ∧ st.total_gouged ≤ st.total_listings

lemma catTotalSum_cons (p : String × CatStats) (m : List (String × CatStats)) :
    catTotalSum (p :: m) = p.2.total + catTotalSum m := by
  simp [catTotalSum]

lemma catTotalSum_updCat (k : String) (f : CatStats → CatStats)
    (hf : ∀ c, (f c).total = c.total + 1) :
    ∀ m, catTotalSum (updCat k f m) = catTotalSum m + 1
  | [] => by simp [catTotalSum, updCat, hf ({} : CatStats)]
  | (k2, v) :: rest => by
    by_cases hk : k2 = k
    · simp only [updCat, if_pos hk, catTotalSum_cons, hf v]
      omega
    · simp only [updCat, if_neg hk, catTotalSum_cons,
        catTotalSum_updCat k f hf rest]
      omega

lemma processOffer_cases (category asin : String) (baseline : Option ℚ)
    (st : AggState) (s : SellerEntry) :
    processOffer category asin baseline st s = st ∨
    ((processOffer category asin baseline st s).total_listings = st.total_listings + 1 ∧
     ((processOffer category asin baseline st s).total_gouged = st.total_gouged ∨
      (processOffer category asin baseline st s).total_gouged = st.total_gouged + 1) ∧
     ∃ f : CatStats → CatStats, (∀ c, (f c).total = c.total + 1) ∧
       (processOffer category asin baseline st s).cat_stats =
         updCat category f st.cat_stats) := by
  unfold processOffer
  by_cases hn : trimStr s.seller_name = ""
  · left
    rw [if_pos hn]
  · right
    rw [if_neg hn]
    rcases hs : seller_unit_price_of s with _ | u <;>
      rcases hb : baseline with _ | b
    · exact ⟨rfl, Or.inl rfl, fun c => { c with total := c.total + 1 },
        fun c => rfl, rfl⟩
    · exact ⟨rfl, Or.inl rfl, fun c => { c with total := c.total + 1 },
        fun c => rfl, rfl⟩
    · exact ⟨rfl, Or.inl rfl, fun c => { c with total := c.total + 1 },
        fun c => rfl, rfl⟩
    · refine ⟨rfl, ?_, _, fun c => rfl, rfl⟩
      rcases hg : is_gouging_final s.price_flag u b
      · exact Or.inl (by simp [hg])
      · exact Or.inr (by simp [hg])

lemma processOffer_inv (category asin : String) (baseline : Option ℚ)
    (s : SellerEntry) (st : AggState) (h : AggInv st) :
    AggInv (processOffer category asin baseline st s) := by
  obtain ⟨h1, h2⟩ := h
  rcases processOffer_cases category asin baseline st s with he | ⟨hl, hg, f, hf, hc⟩
  · rw [he]
    exact ⟨h1, h2⟩
  · constructor
    · rw [hc, catTotalSum_updCat category f hf, h1, hl]
    · rcases hg with hg | hg <;> rw [hg, hl] <;> omega

lemma foldl_pres {α σ : Type} {P : σ → Prop} {f : σ → α → σ}
    (hf : ∀ st x, P st → P (f st x)) :
    ∀ (l : List α) (st : σ), P st → P (l.foldl f st)
  | [], _, h => h
  | x :: xs, st, h => foldl_pres hf xs (f st x) (hf st x h)

lemma processVariant_inv (category : String)
    (mainSellers marketSellers : List SellerEntry) (v : Variant)
    (st : AggState) (h : AggInv st) :
    AggInv (processVariant category mainSellers marketSellers st v) := by
  unfold processVariant
  rcases hva : v.asin with _ | a
  · simp only [hva]
    exact h
  · simp only [hva]
    by_cases ha : a = ""
    · rw [if_pos ha]
      exact h
    · rw [if_neg ha]
      exact foldl_pres (fun st2 s2 hs2 => processOffer_inv category a _ s2 st2 hs2) _ st h

lemma processProduct_inv (st : AggState) (item : Product) (h : AggInv st) :
    AggInv (processProduct st item) := by
  unfold processProduct
  exact foldl_pres (fun st2 v hs2 => processVariant_inv _ _ _ v st2 hs2) _ _ ⟨h.1, h.2⟩

lemma generate_agg_inv (data : List Product) : AggInv (generate_agg data) :=
  foldl_pres (fun st item hs => processProduct_inv st item hs) data {} ⟨rfl, Nat.le_refl 0⟩

lemma clampScore_nonneg (x : ℚ) : 0 ≤ clampScore x := by
  unfold clampScore
  split
  · norm_num
  · split
    · norm_num
    · linarith [not_lt.1 (by assumption : ¬ x < 0)]

lemma clampScore_le (x : ℚ) : clampScore x ≤ 100 := by
  unfold clampScore
  split
  · norm_num
  · split
    · norm_num
    · linarith [not_lt.1 (by assumption : ¬ (100:ℚ) < x)]

lemma rate_bounds {g l : Nat} (h : g ≤ l) :
    0 ≤ (if l = 0 then (0:ℚ) else (g:ℚ) / (l:ℚ) * 100) ∧
      (if l = 0 then (0:ℚ) else (g:ℚ) / (l:ℚ) * 100) ≤ 100 := by
  split
  · norm_num
  · rename_i hl
    have hl0 : (0:ℚ) < (l:ℚ) := by
      exact_mod_cast Nat.pos_of_ne_zero hl
    have hgl : (g:ℚ) ≤ (l:ℚ) := by exact_mod_cast h
    constructor
    · positivity
    · rw [div_mul_eq_mul_div, div_le_iff₀ hl0]
      nlinarith

/-- C9: the per-category total listing counters of category_gouging_summary
sum to the global total_listings: every processed offer is counted exactly
once in its category total and once in the global total. -/
theorem thm_C9 : ∀ data : List Product,
    ((generate_summary data).category_gouging_summary.map
      (fun r => r.total_listings)).sum = (generate_summary data).total_listings := by
  intro data
  obtain ⟨h1, _⟩ := generate_agg_inv data
  show ((((generate_agg data).cat_stats.map catRowOf).insertionSort
      (fun a b => b.gouging_rate ≤ a.gouging_rate)).map
        (fun r => r.total_listings)).sum = (generate_agg data).total_listings
  rw [((List.perm_insertionSort (fun a b => b.gouging_rate ≤ a.gouging_rate)
    ((generate_agg data).cat_stats.map catRowOf)).map
      (fun r => r.total_listings)).sum_eq]
  rw [List.map_map]
  exact h1

/-- C8: the health score equals the weighted formula over gouging rate, mean
overprice percentage and bad-seller proportion, rounded to two digits and
clamped to the interval from 0 to 100; the gouging rate equals gouged over total
listings times 100; both lie in the interval 0 to 100 on every input, and the
empty snapshot yields rate 0 and score 100. -/
theorem thm_C8 :
    (∀ data : List Product,
      0 ≤ (generate_summary data).gouging_rate ∧
      (generate_summary data).gouging_rate ≤ 100 ∧
      0 ≤ (generate_summary data).marketplace_health_score ∧
      (generate_summary data).marketplace_health_score ≤ 100 ∧
      (generate_summary data).marketplace_health_score =
        clampScore (round2 (100 - (generate_summary data).gouging_rate * (1/2)
          - (generate_summary data).avg_overprice_pct * (2/5)
          - (generate_summary data).prop_bad_sellers * (1/10))) ∧
      (generate_summary data).gouging_rate =
        (if (generate_summary data).total_listings = 0 then 0
         else ((generate_summary data).total_gouged_listings : ℚ)
           / ((generate_summary data).total_listings : ℚ) * 100)) ∧
    (generate_summary ([] : List Product)).gouging_rate = 0 ∧
    (generate_summary ([] : List Product)).marketplace_health_score = 100 := by
  refine ⟨?_, by with_unfolding_all rfl, by with_unfolding_all rfl⟩
  intro data
  obtain ⟨-, h2⟩ := generate_agg_inv data
  have hb := rate_bounds (g := (generate_agg data).total_gouged)
    (l := (generate_agg data).total_listings) h2
  exact ⟨hb.1, hb.2, clampScore_nonneg _, clampScore_le _, rfl, rfl⟩

/-- C1 counterexample: a marketplace offer flagged fair price with delta 50
and 500 percent over the amazon baseline is still counted gouged: it lands in
total_gouged_listings, sku_gouged_map, the seller gouged counts and the
candidate list, while the fair-price counter is also incremented. The claim
requires total_gouged_listings 0 for this input. -/
theorem cex_C1 :
    (generate_summary [cexFairProduct]).total_gouged_listings = 1 ∧ (1 : Nat) ≠ 0 ∧
    (generate_summary [cexFairProduct]).fair_price_listings = 1 ∧
    (generate_summary [cexFairProduct]).sku_gouged_map = [("A1", ["Scalper"])] ∧
    (generate_agg [cexFairProduct]).seller_gouged_count = [("Scalper", 1)] ∧
    (generate_agg [cexFairProduct]).candidates.length = 1 :=
  ⟨by with_unfolding_all rfl, by decide, by with_unfolding_all rfl,
   by with_unfolding_all rfl, by with_unfolding_all rfl, by with_unfolding_all rfl⟩

/-- C1 (amended): an upstream fair price flag increments the separate
fair-price counter but does not override the gouging decision: an offer whose
computed thresholds fire (or whose flag is price gouging) is counted in
total_gouged_listings, sku_gouged_map, the seller gouged counts and the
candidate list even when its flag is fair price. -/
theorem thm_C1 : ∀ (category asin : String) (st : AggState) (s : SellerEntry) (u b : ℚ),
    lowerTrim s.price_flag = "fair price" →
    ¬ trimStr s.seller_name = "" →
    seller_unit_price_of s = some u →
    computed_gouging u b = true →
    (processOffer category asin (some b) st s).fair_count = st.fair_count + 1 ∧
    (processOffer category asin (some b) st s).total_gouged = st.total_gouged + 1 ∧
    (processOffer category asin (some b) st s).candidates.length =
      st.candidates.length + 1 ∧
    (processOffer category asin (some b) st s).seller_gouged_count =
      updSeller (trimStr s.seller_name) st.seller_gouged_count ∧
    (processOffer category asin (some b) st s).sku_gouged =
      updSku asin (trimStr s.seller_name) st.sku_gouged := by
  intro category asin st s u b hf hn hsu hg
  have hgi : is_gouging_final s.price_flag u b = true := by
    unfold is_gouging_final
    rw [hg, Bool.true_or]
  unfold processOffer
  rw [if_neg hn]
  simp only [hsu, hgi, hf, if_true, if_pos, List.length_append, List.length_cons,
    List.length_nil]
  exact ⟨trivial, trivial, trivial, trivial, trivial⟩

/-- Witness for the amended C1 at the concrete fair-price-flagged offer with
unit price 60 against baseline 10 starting from the empty accumulator. -/
theorem wit_C1 :
    (processOffer "Snacks" "A1" (some 10) {} scalperEntry).fair_count =
      ({} : AggState).fair_count + 1 ∧
    (processOffer "Snacks" "A1" (some 10) {} scalperEntry).total_gouged =
      ({} : AggState).total_gouged + 1 ∧
    (processOffer "Snacks" "A1" (some 10) {} scalperEntry).candidates.length =
      ({} : AggState).candidates.length + 1 ∧
    (processOffer "Snacks" "A1" (some 10) {} scalperEntry).seller_gouged_count =
      updSeller (trimStr scalperEntry.seller_name) ({} : AggState).seller_gouged_count ∧
    (processOffer "Snacks" "A1" (some 10) {} scalperEntry).sku_gouged =
      updSku "A1" (trimStr scalperEntry.seller_name) ({} : AggState).sku_gouged :=
  thm_C1 "Snacks" "A1" {} scalperEntry 60 10 (by decide) (by decide)
    (by with_unfolding_all rfl) (by with_unfolding_all rfl)

/-- C2 counterexample: two offers with the identical identity (seller name
Foo, no seller id) for the same asin, one primary and one marketplace, are
both processed: total_listings is 2, not the 1 the claimed deduplication
requires. -/
theorem cex_C2 : (generate_summary [cexDupProduct]).total_listings = 2 ∧
    (2 : Nat) ≠ 1 :=
  ⟨by with_unfolding_all rfl, by decide⟩

lemma processOffer_listings (category asin : String) (baseline : Option ℚ)
    (st : AggState) (s : SellerEntry) :
    (processOffer category asin baseline st s).total_listings =
      st.total_listings + (if trimStr s.seller_name = "" then 0 else 1) := by
  unfold processOffer
  by_cases hn : trimStr s.seller_name = ""
  · rw [if_pos hn, if_pos hn]
    omega
  · rw [if_neg hn, if_neg hn]
    rcases hs : seller_unit_price_of s with _ | u <;>
      rcases hb : baseline with _ | b <;> rfl

/-- C2 (amended): for each SKU the engine processes the concatenation of its
primary offers and matching marketplace offers (primary first) with no
deduplication: every entry with a non-empty trimmed seller name is counted in
total_listings once per occurrence, so duplicate identities are counted
multiple times. -/
theorem thm_C2 : ∀ (category asin : String) (baseline : Option ℚ)
    (offers : List SellerEntry) (st : AggState),
    (offers.foldl (processOffer category asin baseline) st).total_listings =
      st.total_listings +
        (offers.filter (fun s => ¬ trimStr s.seller_name = "")).length := by
  intro category asin baseline offers
  induction offers with
  | nil => intro st; simp
  | cons a as ih =>
    intro st
    rw [List.foldl_cons, ih, processOffer_listings]
    by_cases hn : trimStr a.seller_name = ""
    · simp [hn, List.filter_cons]
    · simp [hn, List.filter_cons]
      omega
